import Mathlib

/-!
Verification development for the quicktest assertion library.

Each Go function that a claim depends on is translated into a Lean
definition over a small model of Go values.  Go errors returned by
checkers are modelled by `CErr`; Go's panic-based control flow is made
explicit with `Option` results; Go maps are modelled by total functions
returning the empty string on missing keys, exactly as Go map reads do.
-/

namespace Quicktest

/-- Errors produced by checkers: `badCheck` models the value built by
`BadCheckf` (a `*badCheck`), `silent` models the `ErrSilent` sentinel used to
suppress output, and `normal` models every other error value (for example the
result of `errors.New` or `fmt.Errorf`), carrying its message. -/
inductive CErr where
  | badCheck (msg : String) : CErr
  | silent : CErr
  | normal (msg : String) : CErr
deriving DecidableEq, Repr

/-- Models calling `Error()` on the error value. -/
def CErr.error : CErr → String
  | .badCheck m => m
  | .silent => "silent failure"
  | .normal m => m

/-- Models `IsBadCheck` (error.go): the error was created by `BadCheckf`. -/
def IsBadCheck : CErr → Bool
  | .badCheck _ => true
  | _ => false

/-! ## Deferred callbacks (quicktest.go: `Defer` / `Done`)

A registered callback is modelled by a label (recorded when the callback is
invoked) together with the panic it raises, if any.  The `deferred` field of
`C` is a closure chain; `Defer` wraps the old closure as
`func() { defer oldDeferred(); f() }`, so the new callback runs first and the
old chain always runs afterwards, even if the new callback panics.  Running a
chain returns the trace of invoked labels and the panic value (if any) that
propagates out, where a panic raised later during unwinding supersedes an
earlier one, as in Go. -/

/-- A zero-argument callback: invoking it records `label` and then panics with
the given value, if present. -/
structure Callback where
  label : Nat
  panics : Option String
deriving DecidableEq, Repr

/-- The `deferred` closure chain of a `C`: `empty` is the initial
`func() {}`; `chain old f` is the closure built by `Defer`. -/
inductive Deferred where
  | empty : Deferred
  | chain (old : Deferred) (f : Callback) : Deferred
deriving DecidableEq, Repr

/-- Models `C.Defer` (quicktest.go lines 53-59): replaces the stored closure
with `func() { defer oldDeferred(); f() }`. -/
def Defer (d : Deferred) (f : Callback) : Deferred := .chain d f

/-- Runs a closure chain: the newest callback's body runs first, and the old
chain runs afterwards under `defer`, hence regardless of a panic in the newest
callback.  Returns the updated trace and the propagating panic, if any. -/
def runDeferred : Deferred → List Nat → List Nat × Option String
  | .empty, tr => (tr, none)
  | .chain old f, tr =>
    let rest := runDeferred old (tr ++ [f.label])
    (rest.1, match rest.2 with
      | some q => some q
      | none => f.panics)

/-- The chain obtained by registering the callbacks of `fs` in order with
`Defer`, starting from the fresh `func() {}`. -/
def mkDeferred (fs : List Callback) : Deferred := fs.foldl Defer .empty

/-- Models `C.Done` (quicktest.go lines 67-74): runs the stored chain and
resets it to `func() {}` (the reset happens under `defer`, hence also when a
callback panics).  Returns the run's trace and panic together with the new
chain. -/
def Done (d : Deferred) : (List Nat × Option String) × Deferred :=
  (runDeferred d [], .empty)

/-! ## Value formatting (format.go)

A value handed to `Format` is modelled by how the dynamic capability probes of
the source see it: an error value, a stringer value, a plain string, or
anything else.  For error and stringer values the model records whether the
receiver is a nil pointer and the result of calling the message accessor
(`none` meaning the call panics, as a method dereferencing a nil receiver
does).  `errVal` additionally records the `%+v` rendering, which can differ
from the plain message when the error formats itself.  `Format` returns
`none` exactly when the Go function panics. -/

/-- A Go value as seen by `Format`. -/
inductive FVal where
  | errVal (nilPtr : Bool) (errCall : Option String) (plusV : String) : FVal
  | stringerVal (nilPtr : Bool) (strCall : Option String) : FVal
  | strVal (s : String) : FVal
  | otherVal (pretty : String) : FVal
deriving DecidableEq, Repr

/-- Models `checkStringCall` (format.go lines 53-66): call `f`; on a panic
with a nil-pointer receiver report failure (`ok = false`), otherwise re-panic
(modelled by `none`). -/
def checkStringCall (nilPtr : Bool) (call : Option String) : Option (String × Bool) :=
  match call with
  | some s => some (s, true)
  | none => if nilPtr then some ("", false) else none

/-- Models `strconv.CanBackquote`: no backquote, no carriage return, and no
control characters other than tab. -/
def canBackquote (s : String) : Bool :=
  s.toList.all fun c =>
    c != Char.ofNat 96 && c != Char.ofNat 127 && (c == '\t' || 32 ≤ c.toNat)

/-- Escaping of a single character, as in `strconv.Quote`. -/
def escapeChar (c : Char) : String :=
  if c = Char.ofNat 34 then "\\\""
  else if c = '\\' then "\\\\"
  else if c = '\n' then "\\n"
  else if c = '\t' then "\\t"
  else if c = '\r' then "\\r"
  else String.singleton c

/-- Models `strconv.Quote`: a double-quoted, escaped form of the string. -/
def goQuote (s : String) : String :=
  "\"" ++ String.join (s.toList.map escapeChar) ++ "\""

/-- Models `quoteString` (format.go lines 42-48). -/
def quoteString (s : String) : String :=
  if s.contains (Char.ofNat 34) && !s.contains '\n' && canBackquote s then
    "`" ++ s ++ "`"
  else goQuote s

/-- Models `Format` (format.go lines 16-40).  The result is `none` exactly
when the Go function panics, which happens when the probed `Error`/`String`
call panics on a receiver that is not a nil pointer (`checkStringCall`
re-raises such panics). -/
def Format : FVal → Option String
  | .errVal nilPtr errCall plusV =>
    match checkStringCall nilPtr errCall with
    | none => none
    | some (_, false) => some "e<nil>"
    | some (s, true) =>
      if plusV ≠ s then some plusV else some ("e" ++ quoteString s)
  | .stringerVal nilPtr strCall =>
    match checkStringCall nilPtr strCall with
    | none => none
    | some (_, false) => some "s<nil>"
    | some (s, true) => some ("s" ++ quoteString s)
  | .strVal s => some (quoteString s)
  | .otherVal pretty => some pretty

/-! ## Check dispatch (quicktest.go lines 160-208)

The entry point `check` receives the checker, the `got` value and the raw
argument slice.  Arguments are Go interface values that may be `Comment`
values; all other payloads are opaque for dispatch and are modelled by
strings.  A checker of this era exposes `ArgNames` and a `Check` method that
may emit notes; a note value is an arbitrary interface value, modelled by
`NVal` (`check` itself notes the raw argument slice and an `Unquoted`
string).  The fail callback receives the rendered report; `check` is modelled
as returning its boolean result together with the data passed to `report`, if
any. -/

/-- Models the `Comment` struct via the string its `String` method yields
(the zero `Comment` yields the empty string). -/
structure Comment where
  str : String
deriving DecidableEq, Repr

/-- An interface value in a `Check`/`Assert` argument list: either a
`Comment` or any other value (opaque payload). -/
inductive IVal where
  | comment (c : Comment) : IVal
  | val (v : String) : IVal
deriving DecidableEq, Repr

/-- A note value: the argument slice noted as "got args", an `Unquoted`
string, or any other value a checker may note. -/
inductive NVal where
  | args (vs : List IVal) : NVal
  | unquoted (s : String) : NVal
  | other (v : IVal) : NVal
deriving DecidableEq, Repr

/-- A checker of the `ArgNames` era: its declared argument names and its
`Check` method, which returns the error (if any) together with the notes it
emitted through the note callback. -/
structure Checker where
  argNames : List String
  check : IVal → List IVal → Option CErr × List (String × NVal)

/-- The data `check` hands to `report` on failure: the checker's argument
names (empty for a nil checker), the checked value, the (comment-stripped)
args, the detached comment, the accumulated notes and the error. -/
structure Failure where
  argNames : List String
  got : IVal
  args : List IVal
  comment : Comment
  notes : List (String × NVal)
  err : CErr
deriving DecidableEq, Repr

/-- Models quicktest.go lines 178-183: if the last positional argument is a
`Comment`, detach it. -/
def extractComment (args : List IVal) : Comment × List IVal :=
  match args.getLast? with
  | some (.comment c) => (c, args.dropLast)
  | _ => (⟨""⟩, args)

/-- Models `check` (quicktest.go lines 160-208).  Argument counts are `Int`
because Go computes `len(argNames) - 1` in `int` (so an empty name list wants
`-1` arguments).  Returns the boolean result and, on failure, the report
data. -/
def check (checker : Option Checker) (got : IVal) (args : List IVal) :
    Bool × Option Failure :=
  match checker with
  | none => (false, some ⟨[], got, args, ⟨""⟩, [], .badCheck "nil checker provided"⟩)
  | some chk =>
    let argNames := chk.argNames
    let wantNumArgs : Int := (argNames.length : Int) - 1
    let ca := extractComment args
    let c := ca.1
    let args := ca.2
    let gotNumArgs : Int := (args.length : Int)
    if gotNumArgs ≠ wantNumArgs then
      let ns : List (String × NVal) :=
        (if gotNumArgs > 0 then [("got args", NVal.args args)] else [])
          ++ (if wantNumArgs > 0 then
                [("want args", NVal.unquoted (String.intercalate ", " argNames.tail))]
              else [])
      let pre :=
        if gotNumArgs > wantNumArgs then "too many arguments provided to checker"
        else "not enough arguments provided to checker"
      (false, some ⟨argNames, got, args, c, ns,
        .badCheck (pre ++ ": got " ++ toString gotNumArgs ++ ", want " ++ toString wantNumArgs)⟩)
    else
      match chk.check got args with
      | (none, _) => (true, none)
      | (some e, ns) => (false, some ⟨argNames, got, args, c, ns, e⟩)

/-! ## Failure report rendering (report.go lines 200-242)

`writeError` prints a sequence of key/value sections while maintaining one
deduplication map `values` from rendered value string to the first key that
produced it (a Go map read yields the empty string for a missing key).  Each
`printPair` call appends exactly one section: either the rendering itself or
a back-reference to an earlier key.  A value is either an `Unquoted` string,
printed raw, or any other value, rendered through `p.format`; such other
values carry opaque payloads, modelled by strings. -/

/-- A value handed to `printPair`: either an `Unquoted` string or a value to
be rendered via the report's format function. -/
inductive PValue where
  | unquoted (s : String) : PValue
  | pval (v : String) : PValue
deriving DecidableEq, Repr

/-- The body printed in a section: the rendered value itself or a
back-reference to the earlier key for the same rendering. -/
inductive Rendered where
  | shown (s : String) : Rendered
  | sameAs (key : String) : Rendered
deriving DecidableEq, Repr

/-- Models `reportParams` (report.go lines 166-180), with the comment
represented by its `String()` rendering. -/
structure ReportParams where
  argNames : List String
  got : PValue
  args : List PValue
  comment : String
  notes : List (String × PValue)
  format : String → String

/-- The rendering `printPair` computes for a value. -/
def renderValue (format : String → String) : PValue → String
  | .unquoted s => s
  | .pval v => format v

/-- State threaded through the `printPair` calls: the sections written so far
and the Go map `values` (missing keys read as the empty string). -/
structure DedupState where
  sections : List (String × Rendered)
  values : String → String

/-- Models `printPair` (report.go lines 202-216). -/
def printPair (format : String → String) (st : DedupState) (key : String)
    (value : PValue) : DedupState :=
  let v := renderValue format value
  let k := st.values v
  if k ≠ "" then { st with sections := st.sections ++ [(key, .sameAs k)] }
  else
    { sections := st.sections ++ [(key, .shown v)],
      values := fun x => if x = v then key else st.values x }

/-- The sequence of key/value pairs `writeError` prints, in order: the error
(unless silent), the comment (if non-empty), the notes, and — unless the
error is a bad check or silent — `got` and the args under their declared
argument names (report.go lines 218-241). -/
def pairSeq (err : CErr) (p : ReportParams) : List (String × PValue) :=
  (if err = .silent then [] else [("error", PValue.unquoted (CErr.error err))])
    ++ (if p.comment = "" then [] else [("comment", PValue.unquoted p.comment)])
    ++ p.notes
    ++ (if IsBadCheck err || err = .silent then []
        else p.argNames.zip (p.got :: p.args))

/-- Models `writeError` (report.go lines 200-242) as the list of sections it
writes: each pair of `pairSeq` goes through `printPair` with the shared
deduplication state. -/
def writeError (err : CErr) (p : ReportParams) : List (String × Rendered) :=
  ((pairSeq err p).foldl (fun st kv => printPair p.format st kv.1 kv.2)
    ⟨[], fun _ => ""⟩).sections

/-- First key of an earlier pair with the given rendered value. -/
def firstKeyFor (seen : List (String × String)) (v : String) : Option String :=
  (seen.find? fun kv => kv.2 == v).map Prod.fst

/-- Helper for `dedupRender`, carrying the pairs already processed. -/
def dedupRenderAux : List (String × String) → List (String × String) →
    List (String × Rendered)
  | _, [] => []
  | seen, (k, v) :: rest =>
    (k, (firstKeyFor seen v).elim (Rendered.shown v) Rendered.sameAs)
      :: dedupRenderAux (seen ++ [(k, v)]) rest

/-- Specification-side renderer, following the spec's words for the dedup
invariant: every second or later occurrence of a rendering is replaced by a
back-reference naming the first key that produced it.  Used to state the
refinement: `writeError` produces exactly this on the rendered pair
sequence. -/
def dedupRender (pairs : List (String × String)) : List (String × Rendered) :=
  dedupRenderAux [] pairs

/-! ## Checker catalog (checker.go lines 1-339, the `Info` era)

Go interface values handled by the concrete checkers are modelled by
`GoVal`.  A typed pointer records its type name and address (`none` for a
nil pointer), a slice its type and elements (`none` for a nil slice); an
error value records its dynamic type and message, a stringer its `String()`
result, and a function value its parameter count and the panic it raises
when called (`none` if it returns normally).  Go `==` on two interface
values panics when the identical dynamic type is not comparable; `goEq`
returns `none` for that case. -/

/-- A Go interface value as seen by the concrete checkers. -/
inductive GoVal where
  | nilV : GoVal
  | intV (n : Int) : GoVal
  | strV (s : String) : GoVal
  | boolV (b : Bool) : GoVal
  | ptrV (ty : String) (addr : Option Nat) : GoVal
  | sliceV (ty : String) (elems : Option (List Int)) : GoVal
  | stringerV (s : String) : GoVal
  | errV (ty : String) (msg : String) : GoVal
  | funcV (numIn : Nat) (panicRes : Option String) : GoVal
deriving DecidableEq, Repr

instance : Inhabited GoVal := ⟨GoVal.nilV⟩

/-- Models the `%T` verb on the value. -/
def goTypeName : GoVal → String
  | .nilV => "<nil>"
  | .intV _ => "int"
  | .strV _ => "string"
  | .boolV _ => "bool"
  | .ptrV ty _ => "*" ++ ty
  | .sliceV ty _ => "[]" ++ ty
  | .stringerV _ => "*stringer"
  | .errV ty _ => ty
  | .funcV _ _ => "func()"

/-- Models Go `==` on interface values: `none` when the comparison panics
(identical uncomparable dynamic type), otherwise the boolean outcome.  An
interface holding a typed value never equals the nil interface. -/
def goEq : GoVal → GoVal → Option Bool
  | .nilV, .nilV => some true
  | .intV a, .intV b => some (a == b)
  | .strV a, .strV b => some (a == b)
  | .boolV a, .boolV b => some (a == b)
  | .ptrV t a, .ptrV u b => some (t == u && a == b)
  | .sliceV t _, .sliceV u _ => if t == u then none else some false
  | .funcV _ _, .funcV _ _ => none
  | .stringerV a, .stringerV b => some (a == b)
  | .errV t a, .errV u b => some (t == u && a == b)
  | _, _ => some false

/-- Models a `%#v` rendering of the value (exact text is not load-bearing
for any claim; it only feeds failure messages). -/
def goSharpV : GoVal → String
  | .nilV => "<nil>"
  | .intV n => toString n
  | .strV s => goQuote s
  | .boolV b => if b then "true" else "false"
  | .ptrV ty none => "(*" ++ ty ++ ")(nil)"
  | .ptrV ty (some a) => "(*" ++ ty ++ ")(" ++ toString a ++ ")"
  | .sliceV ty none => "[]" ++ ty ++ "(nil)"
  | .sliceV ty (some es) => "[]" ++ ty ++ "(" ++ String.intercalate ", " (es.map toString) ++ ")"
  | .stringerV s => "stringer(" ++ goQuote s ++ ")"
  | .errV ty m => "&" ++ ty ++ "(" ++ goQuote m ++ ")"
  | .funcV _ _ => "(func())"

/-- Models `equalsChecker.Check` (checker.go lines 51-62): `got == args[0]`,
with the deferred `recover` turning a comparison panic — or the index panic
on an empty `args` — into a normal error carrying the panic text. -/
def equalsCheckerCheck (got : GoVal) (args : List GoVal) : Option CErr :=
  match args with
  | want :: _ =>
    match goEq got want with
    | some true => none
    | some false => some (.normal "values are not equal")
    | none => some (.normal ("runtime error: comparing uncomparable type " ++ goTypeName got))
  | [] => some (.normal "runtime error: index out of range [0] with length 0")

/-- Kinds `isNilChecker.Check` treats as nilable (the model carries pointer,
slice and function values of those kinds). -/
def reflectNilableKind : GoVal → Bool
  | .ptrV _ _ => true
  | .sliceV _ _ => true
  | .funcV _ _ => true
  | _ => false

/-- Models `reflect.Value.IsNil` on the value. -/
def reflectIsNil : GoVal → Bool
  | .ptrV _ addr => addr.isNone
  | .sliceV _ elems => elems.isNone
  | _ => false

/-- Models `isNilChecker.Check` (checker.go lines 224-236): a literal nil
interface, or a value of nilable kind whose runtime value is nil, passes;
anything else fails with the `%#v is not nil` message. -/
def isNilCheckerCheck (got : GoVal) (_args : List GoVal) : Option CErr :=
  if got = .nilV then none
  else if reflectNilableKind got && reflectIsNil got then none
  else some (.normal (goSharpV got ++ " is not nil"))

/-- The `regexp.MatchString` capability: given the pattern and the subject,
either a compile error (with its message) or whether the subject matches.
The regular-expression engine itself is external to the repository, so the
checkers are parametrised over it. -/
abbrev RegexEngine := String → String → Except String Bool

/-- Models the `match` helper (checker.go lines 325-339): the pattern must be
a string; it is anchored as `^(pattern)$` and handed to the engine; a compile
failure becomes a bad-check error, a non-match the given message. -/
def goMatch (ms : RegexEngine) (got : String) (pattern : GoVal) (msg : String) :
    Option CErr :=
  match pattern with
  | .strV regex =>
    match ms ("^(" ++ regex ++ ")$") got with
    | .error e =>
      some (.badCheck ("cannot compile regular expression " ++ goQuote regex ++ ": " ++ e))
    | .ok true => none
    | .ok false => some (.normal msg)
  | _ =>
    some (.badCheck ("regular expression pattern must be a string, got "
      ++ goTypeName pattern ++ " instead"))

/-- Models `matchesChecker.Check` (checker.go lines 127-137); the second
component is the emitted notes. -/
def matchesCheckerCheck (ms : RegexEngine) (got : GoVal) (args : List GoVal) :
    Option CErr × List (String × String) :=
  match got with
  | .strV v => (goMatch ms v args.headI "value does not match regexp", [])
  | .stringerV s =>
    (goMatch ms s args.headI "value.String() does not match regexp",
      [("value.String()", goQuote s)])
  | _ =>
    (some (.badCheck ("did not get a string or a fmt.Stringer, got "
      ++ goTypeName got ++ " instead")), [])

/-- Models `errorMatchesChecker.Check` (checker.go lines 155-166): the
subject must be an error value (an interface holding a typed value is never
nil, so the `no error found` branch of the source is unreachable and has no
model counterpart). -/
def errorMatchesCheckerCheck (ms : RegexEngine) (got : GoVal) (args : List GoVal) :
    Option CErr × List (String × String) :=
  match got with
  | .errV _ m =>
    (goMatch ms m args.headI "error does not match regexp", [("error message", m)])
  | _ =>
    (some (.badCheck ("did not get an error, got " ++ goTypeName got ++ " instead")), [])

/-- Models `panicMatchesChecker.Check` (checker.go lines 184-208): the
subject must be a function taking no arguments; it is called, a recovered
panic is noted and matched, and a normal return is the `function did not
panic` failure. -/
def panicMatchesCheckerCheck (ms : RegexEngine) (got : GoVal) (args : List GoVal) :
    Option CErr × List (String × String) :=
  match got with
  | .funcV numIn panicRes =>
    if numIn ≠ 0 then
      (some (.badCheck ("expected a function accepting no arguments, got "
        ++ goTypeName got ++ " instead")), [])
    else
      match panicRes with
      | none => (some (.normal "function did not panic"), [])
      | some m =>
        (goMatch ms m args.headI "panic value does not match regexp",
          [("panic value", m)])
  | _ =>
    (some (.badCheck ("expected a function, got " ++ goTypeName got ++ " instead")), [])

/-- Name and argument names of a checker, as held by the `info` struct. -/
structure CheckerInfo where
  name : String
  argNames : List String
deriving DecidableEq, Repr

/-- A checker of this era, closed under `Not`: a base checker carries its
info and its `Check` method (returning the error and the notes emitted);
`notChecker` is the wrapper built by `Not`. -/
inductive QChecker where
  | base (i : CheckerInfo) (chk : GoVal → List GoVal → Option CErr × List (String × String)) :
      QChecker
  | notChecker (inner : QChecker) : QChecker

/-- Models `Checker.Info`: `Not` wraps the inner name in `not(...)` and
keeps the argument names (checker.go lines 278-284, 321-323). -/
def QChecker.Info : QChecker → String × List String
  | .base i _ => (i.name, i.argNames)
  | .notChecker c => (("not(" ++ c.Info.1 ++ ")"), c.Info.2)

/-- Models running a checker's `Check` method; for `notChecker` this is
`notChecker.Check` (checker.go lines 292-304): an inner `notChecker` is
unwrapped and its own inner checker run directly; otherwise the inner result
is inverted, except that a bad-check error is propagated untouched.  Notes
emitted by the inner checker flow through the shared note callback either
way. -/
def QChecker.run : QChecker → GoVal → List GoVal → Option CErr × List (String × String)
  | .base _ chk, got, args => chk got args
  | .notChecker (.notChecker c), got, args => QChecker.run c got args
  | .notChecker (.base _ chk), got, args =>
    let r := chk got args
    match r.1 with
    | some e => if IsBadCheck e then (some e, r.2) else (none, r.2)
    | none => (some (.normal "unexpected success"), r.2)

/-! ## Eventually checker (unnamed/part_002 lines 158-214)

The retry strategies schedule wall-clock delays; what is observable in the
control flow is how many loop iterations a strategy's iterator yields and the
`MaxDuration` text interpolated into failure messages.  A strategy is
modelled by `nextCount` (how many times `Next` reports another attempt after
the always-run first one) and that text.  The polled subject is a Go value
that is either a function — whose successive call results are the stream
`vals` — or not a function; each loop iteration calls the function once, so
call indices are shared between the main loop and the stability loop. -/

/-- The subject of an `Eventually` check. -/
inductive EvSubject where
  | fnV (numIn numOut : Nat) (vals : Nat → GoVal) : EvSubject
  | nonFn (ty : String) : EvSubject

/-- A note value in this era is an arbitrary interface value: a checker value
or the subject itself (the deferred dump notes the current `got`). -/
inductive EvVal where
  | val (v : GoVal) : EvVal
  | subj (s : EvSubject) : EvVal

/-- Model of `retry.Strategy`: iterations yielded after the first, and the
rendered `MaxDuration`. -/
structure RetryStrategy where
  nextCount : Nat
  maxDuration : String

/-- Outcome of one of the two retry loops: the resulting error, the notes of
the last inner call, the next unused call index, and the last polled value
(the loop body always runs at least once). -/
structure EvLoopResult where
  err : Option CErr
  notes : List (String × EvVal)
  nextIdx : Nat
  lastGot : GoVal

/-- The main polling loop (part_002 lines 188-195): poll and check until the
first success or until the strategy yields no further attempt, whichever
comes first. -/
def evMainLoop (chk : GoVal → List GoVal → Option CErr × List (String × EvVal))
    (args : List GoVal) (f : Nat → GoVal) : Nat → Nat → EvLoopResult
  | idx, 0 =>
    let g := f idx
    let r := chk g args
    ⟨r.1, r.2, idx + 1, g⟩
  | idx, n + 1 =>
    let g := f idx
    let r := chk g args
    match r.1 with
    | none => ⟨none, r.2, idx + 1, g⟩
    | some _ => evMainLoop chk args f (idx + 1) n

/-- The stability loop (part_002 lines 202-211): poll and check until the
first failure — which becomes the overall error, wrapped with the stability
budget — or until the stability strategy yields no further attempt. -/
def evStableLoop (chk : GoVal → List GoVal → Option CErr × List (String × EvVal))
    (args : List GoVal) (f : Nat → GoVal) (stableMax : String) : Nat → Nat → EvLoopResult
  | idx, 0 =>
    let g := f idx
    let r := chk g args
    ⟨(r.1).map (fun e =>
        CErr.normal ("less than " ++ stableMax ++ " after an initial success, " ++ e.error)),
      r.2, idx + 1, g⟩
  | idx, n + 1 =>
    let g := f idx
    let r := chk g args
    match r.1 with
    | some e =>
      ⟨some (.normal ("less than " ++ stableMax ++ " after an initial success, " ++ e.error)),
        r.2, idx + 1, g⟩
    | none => evStableLoop chk args f stableMax (idx + 1) n

/-- Models `EventuallyChecker` (part_002 lines 123-127): the wrapped
checker's `Check`, the retry strategy and the optional stability strategy. -/
structure EventuallyChecker where
  checker : GoVal → List GoVal → Option CErr × List (String × EvVal)
  retryStrategy : RetryStrategy
  stableRetryStrategy : Option RetryStrategy

/-- Models `EventuallyChecker.Check` (part_002 lines 158-214).  The second
component is what the deferred block hands to the outer note callback: the
notes of the last inner call followed by the current `got` value. -/
def EventuallyChecker.Check (e : EventuallyChecker) (got : EvSubject)
    (args : List GoVal) : Option CErr × List (String × EvVal) :=
  match got with
  | .nonFn _ =>
    (some (.badCheck "first argument is not a function"), [("got", EvVal.subj got)])
  | .fnV numIn numOut vals =>
    if numIn ≠ 0 then
      (some (.badCheck "cannot use a function receiving arguments"), [("got", EvVal.subj got)])
    else if numOut ≠ 1 then
      (some (.badCheck "cannot use a function returning more than one value"),
        [("got", EvVal.subj got)])
    else
      let r := evMainLoop e.checker args vals 0 e.retryStrategy.nextCount
      match r.err with
      | some er =>
        (some (.normal ("tried for " ++ e.retryStrategy.maxDuration ++ ", " ++ er.error)),
          r.notes ++ [("got", EvVal.val r.lastGot)])
      | none =>
        match e.stableRetryStrategy with
        | none => (none, r.notes ++ [("got", EvVal.val r.lastGot)])
        | some st =>
          let r2 := evStableLoop e.checker args vals st.maxDuration r.nextIdx st.nextCount
          (r2.err, r2.notes ++ [("got", EvVal.val r2.lastGot)])

/-! ## Lemmas -/

/-- Running a chain only appends to the trace. -/
theorem runDeferred_trace (d : Deferred) (tr : List Nat) :
    (runDeferred d tr).1 = tr ++ (runDeferred d []).1 := by
  induction d generalizing tr with
  | empty => simp [runDeferred]
  | chain old f ih =>
    simp only [runDeferred]
    rw [ih (tr ++ [f.label]), ih ([] ++ [f.label])]
    simp

/-- The trace of a chain built by registering `fs` on top of `d`. -/
theorem runDeferred_foldl (fs : List Callback) (d : Deferred) :
    (runDeferred (fs.foldl Defer d) []).1
      = fs.reverse.map Callback.label ++ (runDeferred d []).1 := by
  induction fs generalizing d with
  | nil => simp
  | cons f rest ih =>
    have hstep : (runDeferred (Defer d f) []).1 = f.label :: (runDeferred d []).1 := by
      simp only [Defer, runDeferred]
      rw [runDeferred_trace d ([] ++ [f.label])]
      simp
    simp only [List.foldl_cons, List.reverse_cons, List.map_append]
    rw [ih (Defer d f), hstep]
    simp

/-! ## Claims -/

/-- C8: `Done` invokes all callbacks registered with `Defer` in reverse
registration order — the trace of a `Done` on the chain built from `fs`
is exactly the labels of `fs` reversed, for every panic configuration of
the callbacks, so a panicking callback never prevents the remaining
(earlier-registered) callbacks from running. -/
theorem claim_C8_defer_done (fs : List Callback) :
    (Done (mkDeferred fs)).1.1 = fs.reverse.map Callback.label := by
  show (runDeferred (fs.foldl Defer .empty) []).1 = _
  rw [runDeferred_foldl]
  simp [runDeferred]

/-- C3 counterexample: `Format` is not total on all inputs — for an error
value whose `Error` method panics on a receiver that is not a nil pointer
(a concrete Go value such as `type badErr struct{}` with a panicking
`Error`), `checkStringCall` re-raises the panic and `Format` panics. -/
theorem claim_C3_counterexample :
    Format (FVal.errVal false none "boom") = none ∧
      ¬ ∀ v : FVal, (Format v).isSome = true := by
  refine ⟨rfl, fun h => ?_⟩
  exact absurd (h (FVal.errVal false none "boom")) (by decide)

/-- C3 (amended): `Format` is a pure function that never panics on any input
whose error/stringer message accessor panics only on nil-pointer receivers;
in particular, for a nil pointer whose type implements the error interface it
does not panic and renders the distinguishable nil-error marker `e<nil>`. -/
theorem claim_C3_format (v : FVal)
    (h : match v with
         | .errVal nilPtr call _ => call = none → nilPtr = true
         | .stringerVal nilPtr call => call = none → nilPtr = true
         | _ => True) :
    (Format v).isSome = true ∧
      ∀ pv, Format (FVal.errVal true none pv) = some "e<nil>" := by
  refine ⟨?_, fun pv => rfl⟩
  match v with
  | .errVal nilPtr call pv =>
    match call with
    | some s =>
      simp only [Format, checkStringCall]
      split <;> rfl
    | none => rw [h rfl]; rfl
  | .stringerVal nilPtr call =>
    match call with
    | some s => simp [Format, checkStringCall]
    | none => rw [h rfl]; rfl
  | .strVal s => rfl
  | .otherVal s => rfl

/-- Witness for C3: the amended theorem applied at a nil-pointer error
value. -/
theorem claim_C3_format_witness :
    (Format (FVal.errVal true none "x")).isSome = true ∧
      ∀ pv, Format (FVal.errVal true none pv) = some "e<nil>" :=
  claim_C3_format (FVal.errVal true none "x") (fun _ => rfl)

/-- C10: `Equals` on a typed nil pointer against untyped nil fails with the
normal error `values are not equal` (interface equality distinguishes a typed
nil from the literal nil), while `IsNil` succeeds on every value of nilable
kind whose runtime value is nil — in particular on that same typed nil
pointer. -/
theorem claim_C10_equals_isnil (ty : String) (v : GoVal)
    (h1 : reflectNilableKind v = true) (h2 : reflectIsNil v = true) :
    equalsCheckerCheck (GoVal.ptrV ty none) [GoVal.nilV]
        = some (CErr.normal "values are not equal") ∧
      isNilCheckerCheck v [] = none := by
  constructor
  · rfl
  · match v with
    | .ptrV t a =>
      simp only [reflectIsNil, Option.isNone_iff_eq_none] at h2
      subst h2
      rfl
    | .sliceV t e =>
      simp only [reflectIsNil, Option.isNone_iff_eq_none] at h2
      subst h2
      rfl
    | .funcV n p => simp [reflectIsNil] at h2
    | .nilV => simp [reflectNilableKind] at h1
    | .intV n => simp [reflectNilableKind] at h1
    | .strV s => simp [reflectNilableKind] at h1
    | .boolV b => simp [reflectNilableKind] at h1
    | .stringerV s => simp [reflectNilableKind] at h1
    | .errV t m => simp [reflectNilableKind] at h1

/-- Witness for C10: applied to the typed nil pointer itself. -/
theorem claim_C10_equals_isnil_witness :
    equalsCheckerCheck (GoVal.ptrV "sometype" none) [GoVal.nilV]
        = some (CErr.normal "values are not equal") ∧
      isNilCheckerCheck (GoVal.ptrV "sometype" none) [] = none :=
  claim_C10_equals_isnil "sometype" (GoVal.ptrV "sometype" none) rfl rfl

/-- Bad-check propagation through `Not`, in both directions, by structural
induction on the checker. -/
theorem notChecker_badCheck_iff (c : QChecker) (got : GoVal) (args : List GoVal) :
    (∀ m ns, QChecker.run c got args = (some (.badCheck m), ns) →
        QChecker.run (.notChecker c) got args = (some (.badCheck m), ns)) ∧
      (∀ m ns, QChecker.run (.notChecker c) got args = (some (.badCheck m), ns) →
        QChecker.run c got args = (some (.badCheck m), ns)) := by
  induction c with
  | base i chk =>
    constructor
    · intro m ns h
      simp only [QChecker.run] at h ⊢
      rw [h]
      simp [IsBadCheck]
    · intro m ns h
      simp only [QChecker.run] at h ⊢
      rcases hr : (chk got args).1 with _ | e
      · rw [hr] at h
        simp at h
      · rw [hr] at h
        rcases e with me | _ | me
        · simp only [IsBadCheck, if_true] at h
          obtain ⟨h1, h2⟩ := Prod.mk.injEq .. ▸ h
          rw [← h1, ← h2, ← hr]
        · simp [IsBadCheck] at h
        · simp [IsBadCheck] at h
  | notChecker c ih =>
    constructor
    · intro m ns h
      show QChecker.run c got args = _
      exact ih.2 m ns h
    · intro m ns h
      exact ih.1 m ns h

/-- C5: double negation unwraps — `Not(Not(C))` runs exactly as `C` on every
input, for success and failure alike — and `Not` propagates an inner
bad-check error untouched instead of inverting it into a success. -/
theorem claim_C5_not (c : QChecker) (got : GoVal) (args : List GoVal) :
    QChecker.run (.notChecker (.notChecker c)) got args = QChecker.run c got args ∧
      (∀ m ns, QChecker.run c got args = (some (.badCheck m), ns) →
        QChecker.run (.notChecker c) got args = (some (.badCheck m), ns)) :=
  ⟨rfl, (notChecker_badCheck_iff c got args).1⟩

/-- Witness for C5: a base checker that reports a bad check; negating it
propagates the bad check unchanged. -/
theorem claim_C5_not_witness :
    QChecker.run
        (.notChecker (QChecker.base ⟨"c", ["got"]⟩ fun _ _ => (some (.badCheck "bad"), [])))
        GoVal.nilV []
      = (some (.badCheck "bad"), []) :=
  (claim_C5_not (QChecker.base ⟨"c", ["got"]⟩ fun _ _ => (some (.badCheck "bad"), []))
    GoVal.nilV []).2 "bad" [] rfl

/-- Each `printPair` call appends exactly one section carrying its key. -/
theorem printPair_keys (fmt : String → String) (st : DedupState) (k : String)
    (val : PValue) :
    ((printPair fmt st k val).sections).map Prod.fst
      = st.sections.map Prod.fst ++ [k] := by
  simp only [printPair]
  split <;> simp

/-- The keys of the sections produced by a `printPair` fold are the keys of
the pairs, in order. -/
theorem foldl_printPair_keys (fmt : String → String) (pairs : List (String × PValue))
    (st : DedupState) :
    ((pairs.foldl (fun st kv => printPair fmt st kv.1 kv.2) st).sections).map Prod.fst
      = st.sections.map Prod.fst ++ pairs.map Prod.fst := by
  induction pairs generalizing st with
  | nil => simp
  | cons kv rest ih =>
    simp only [List.foldl_cons]
    rw [ih, printPair_keys]
    simp

/-- C4: for a bad-check error the rendered report keeps the error-text
section and every note but omits all got/want argument sections; for the
silent sentinel additionally the error-text section is suppressed, while the
notes still all appear. -/
theorem claim_C4_badcheck_silent (err : CErr) (p : ReportParams) :
    (IsBadCheck err = true →
      (writeError err p).map Prod.fst
        = "error" :: ((if p.comment = "" then [] else ["comment"])
            ++ p.notes.map Prod.fst)) ∧
    (err = .silent →
      (writeError err p).map Prod.fst
        = (if p.comment = "" then [] else ["comment"]) ++ p.notes.map Prod.fst) := by
  constructor
  · intro hb
    match err, hb with
    | .badCheck m, _ =>
      simp only [writeError]
      rw [foldl_printPair_keys]
      by_cases hc : p.comment = "" <;> simp [pairSeq, hc, IsBadCheck]
  · intro hs
    subst hs
    simp only [writeError]
    rw [foldl_printPair_keys]
    by_cases hc : p.comment = "" <;> simp [pairSeq, hc, IsBadCheck]

/-- Witness for C4 at a concrete report: one bad-check error and one silent
error, with a comment and one note. -/
theorem claim_C4_badcheck_silent_witness :
    ((writeError (.badCheck "m")
        ⟨["got", "want"], .pval "g", [.pval "w"], "cmt", [("note1", .pval "n")],
          fun s => s⟩).map Prod.fst
      = "error" :: ((if ("cmt" : String) = "" then [] else ["comment"]) ++ ["note1"])) ∧
    ((writeError .silent
        ⟨["got", "want"], .pval "g", [.pval "w"], "cmt", [("note1", .pval "n")],
          fun s => s⟩).map Prod.fst
      = (if ("cmt" : String) = "" then [] else ["comment"]) ++ ["note1"]) :=
  ⟨(claim_C4_badcheck_silent (.badCheck "m") _).1 rfl,
    (claim_C4_badcheck_silent .silent _).2 rfl⟩

/-- C1: whenever the number of non-comment arguments differs from the
checker's declared count (`len(argNames) - 1`), `check` fails with a
bad-check error reporting both counts, and the checker's `Check` method is
never invoked (the outcome is the same for any two checkers sharing the
declared argument names). -/
theorem claim_C1_arity (argNames : List String)
    (f g : IVal → List IVal → Option CErr × List (String × NVal))
    (got : IVal) (args : List IVal)
    (h : ((extractComment args).2.length : Int) ≠ (argNames.length : Int) - 1) :
    check (some ⟨argNames, f⟩) got args = check (some ⟨argNames, g⟩) got args ∧
      ∃ fl : Failure,
        check (some ⟨argNames, f⟩) got args = (false, some fl) ∧
          fl.err = .badCheck
            ((if ((extractComment args).2.length : Int) > (argNames.length : Int) - 1 then
                "too many arguments provided to checker"
              else "not enough arguments provided to checker")
              ++ ": got " ++ toString ((extractComment args).2.length : Int)
              ++ ", want " ++ toString ((argNames.length : Int) - 1)) := by
  have key : ∀ f0 : IVal → List IVal → Option CErr × List (String × NVal),
      check (some ⟨argNames, f0⟩) got args = (false, some
        ⟨argNames, got, (extractComment args).2, (extractComment args).1,
          (if ((extractComment args).2.length : Int) > 0 then
             [("got args", NVal.args (extractComment args).2)] else [])
            ++ (if ((argNames.length : Int) - 1) > 0 then
                  [("want args", NVal.unquoted (String.intercalate ", " argNames.tail))]
                else []),
          .badCheck
            ((if ((extractComment args).2.length : Int) > (argNames.length : Int) - 1 then
                "too many arguments provided to checker"
              else "not enough arguments provided to checker")
              ++ ": got " ++ toString ((extractComment args).2.length : Int)
              ++ ", want " ++ toString ((argNames.length : Int) - 1))⟩) := by
    intro f0
    simp only [check]
    rw [if_pos h]
  exact ⟨(key f).trans (key g).symm, _, key f, rfl⟩

/-- Witness for C1: a two-name checker invoked with no argument; the result
does not depend on the checker's comparison logic and is the counting
bad-check failure. -/
theorem claim_C1_arity_witness :
    (check (some ⟨["got", "want"], fun _ _ => (none, [])⟩) (IVal.val "x") []).1 = false := by
  obtain ⟨-, fl, hfl, -⟩ :=
    claim_C1_arity ["got", "want"] (fun _ _ => (none, []))
      (fun _ _ => (some (CErr.normal "e"), [])) (IVal.val "x") [] (by decide)
  rw [hfl]

/-- C9: a trailing `Comment` argument is detached before arity validation and
never reaches the checker — the call behaves exactly as the call without the
comment, except that the detached comment is attached to the failure
report. -/
theorem claim_C9_comment (chk : Checker) (got : IVal) (vals : List IVal) (c : Comment)
    (h : ∀ cc, vals.getLast? ≠ some (IVal.comment cc)) :
    check (some chk) got (vals ++ [IVal.comment c])
      = ((check (some chk) got vals).1,
          (check (some chk) got vals).2.map fun fl => { fl with comment := c }) := by
  have hx : extractComment (vals ++ [IVal.comment c]) = (c, vals) := by
    simp [extractComment, List.getLast?_concat, List.dropLast_concat]
  have hy : extractComment vals = (⟨""⟩, vals) := by
    unfold extractComment
    match hv : vals.getLast? with
    | none => rfl
    | some (.comment cc) => exact absurd hv (h cc)
    | some (.val v) => rfl
  simp only [check, hx, hy]
  by_cases harity : ((vals.length : Int)) ≠ (chk.argNames.length : Int) - 1
  · simp [if_pos harity]
  · rw [if_neg harity, if_neg harity]
    rcases hr : chk.check got vals with ⟨e, ns⟩
    cases e <;> simp

/-- Witness for C9: a concrete call carrying a trailing comment. -/
theorem claim_C9_comment_witness :
    check (some ⟨["got", "want"], fun _ _ => (some (CErr.normal "ne"), [])⟩)
        (IVal.val "x") ([IVal.val "w"] ++ [IVal.comment ⟨"hi"⟩])
      = ((check (some ⟨["got", "want"], fun _ _ => (some (CErr.normal "ne"), [])⟩)
            (IVal.val "x") [IVal.val "w"]).1,
          (check (some ⟨["got", "want"], fun _ _ => (some (CErr.normal "ne"), [])⟩)
            (IVal.val "x") [IVal.val "w"]).2.map
              fun fl => { fl with comment := (⟨"hi"⟩ : Comment) }) :=
  claim_C9_comment _ _ _ _ (by intro cc; simp)

/-- A key already found stays the first key when the seen list grows. -/
theorem firstKeyFor_append_of_some {seen : List (String × String)} {w k0 : String}
    (l2 : List (String × String)) (h : firstKeyFor seen w = some k0) :
    firstKeyFor (seen ++ l2) w = some k0 := by
  simp only [firstKeyFor, Option.map_eq_some'] at h
  obtain ⟨kv0, hkv0, hk0⟩ := h
  simp [firstKeyFor, List.find?_append, hkv0, Option.or, hk0]

/-- Looking up in a seen list extended by one pair, when the original list
has no key for the value. -/
theorem firstKeyFor_append_of_none {seen : List (String × String)} {w : String}
    (k v : String) (h : firstKeyFor seen w = none) :
    firstKeyFor (seen ++ [(k, v)]) w = if v = w then some k else none := by
  simp only [firstKeyFor, Option.map_eq_none'] at h
  simp only [firstKeyFor, List.find?_append, h, Option.or, List.find?]
  by_cases hvw : v = w
  · simp [hvw]
  · have hb : (v == w) = false := beq_eq_false_iff_ne.2 hvw
    rw [hb]
    simp [hvw]

/-- The fold of `printPair` refines the specification-side renderer: starting
from a state whose dedup map agrees with the pairs already seen, and given
that no key is empty, the sections produced for the remaining pairs are
exactly those of `dedupRenderAux`. -/
theorem foldl_printPair_spec (fmt : String → String) (pairs : List (String × PValue))
    (st : DedupState) (seen : List (String × String))
    (hp : ∀ kv ∈ pairs, kv.1 ≠ "") (hs : ∀ kv ∈ seen, kv.1 ≠ "")
    (hv : ∀ w, st.values w = (firstKeyFor seen w).getD "") :
    (pairs.foldl (fun st kv => printPair fmt st kv.1 kv.2) st).sections
      = st.sections ++ dedupRenderAux seen (pairs.map fun kv => (kv.1, renderValue fmt kv.2)) := by
  induction pairs generalizing st seen with
  | nil => simp [dedupRenderAux]
  | cons kv rest ih =>
    obtain ⟨k, val⟩ := kv
    have hval : st.values (renderValue fmt val)
        = (firstKeyFor seen (renderValue fmt val)).getD "" := hv _
    have hseen : ∀ kv0 ∈ seen ++ [(k, renderValue fmt val)], kv0.1 ≠ "" := by
      intro kv0 h0
      rcases List.mem_append.1 h0 with h0 | h0
      · exact hs kv0 h0
      · rw [List.mem_singleton] at h0
        subst h0
        exact hp (k, val) (List.mem_cons_self _ _)
    have hrest : ∀ kv0 ∈ rest, kv0.1 ≠ "" :=
      fun kv0 h0 => hp kv0 (List.mem_cons_of_mem _ h0)
    simp only [List.foldl_cons, List.map_cons, dedupRenderAux]
    rcases hf : firstKeyFor seen (renderValue fmt val) with _ | k0
    · rw [hf, Option.getD_none] at hval
      have hpp : printPair fmt st k val =
          ⟨st.sections ++ [(k, .shown (renderValue fmt val))],
            fun x => if x = renderValue fmt val then k else st.values x⟩ := by
        simp [printPair, hval]
      rw [hpp,
        ih ⟨st.sections ++ [(k, Rendered.shown (renderValue fmt val))],
            fun x => if x = renderValue fmt val then k else st.values x⟩
          (seen ++ [(k, renderValue fmt val)]) hrest hseen
          (by
            intro w
            by_cases hwv : w = renderValue fmt val
            · subst hwv
              rw [firstKeyFor_append_of_none k _ hf, if_pos rfl]
              simp
            · rcases hfw : firstKeyFor seen w with _ | k1
              · rw [firstKeyFor_append_of_none k _ hfw,
                  if_neg (fun hh => hwv hh.symm)]
                have h2 := hv w
                rw [hfw] at h2
                simpa [hwv] using h2
              · rw [firstKeyFor_append_of_some _ hfw]
                have h2 := hv w
                rw [hfw] at h2
                simpa [hwv] using h2)]
      simp [Option.elim]
    · have hfind : ∃ kv0, seen.find? (fun x => x.2 == renderValue fmt val) = some kv0 ∧
          kv0.1 = k0 := by
        have hmap := hf
        simp only [firstKeyFor, Option.map_eq_some'] at hmap
        exact hmap
      obtain ⟨kv0, hkv0, hk0⟩ := hfind
      have hk0ne : k0 ≠ "" := by
        rw [← hk0]
        exact hs kv0 (List.mem_of_find?_eq_some hkv0)
      rw [hf] at hval
      have hpp : printPair fmt st k val =
          { st with sections := st.sections ++ [(k, Rendered.sameAs k0)] } := by
        simp [printPair, hval, hk0ne]
      rw [hpp,
        ih { st with sections := st.sections ++ [(k, Rendered.sameAs k0)] }
          (seen ++ [(k, renderValue fmt val)]) hrest hseen
          (by
            intro w
            by_cases hwv : w = renderValue fmt val
            · subst hwv
              rw [firstKeyFor_append_of_some _ hf]
              have h2 := hv (renderValue fmt val)
              rw [hf] at h2
              exact h2
            · rcases hfw : firstKeyFor seen w with _ | k1
              · rw [firstKeyFor_append_of_none k _ hfw,
                  if_neg (fun hh => hwv hh.symm)]
                have h2 := hv w
                rw [hfw] at h2
                exact h2
              · rw [firstKeyFor_append_of_some _ hfw]
                have h2 := hv w
                rw [hfw] at h2
                exact h2)]
      simp [Option.elim]

/-- A shown section can only arise from a rendering that no earlier pair
produced. -/
theorem dedupRenderAux_shown (pairs seen : List (String × String)) (k s : String)
    (h : (k, Rendered.shown s) ∈ dedupRenderAux seen pairs) :
    firstKeyFor seen s = none := by
  induction pairs generalizing seen with
  | nil => simp [dedupRenderAux] at h
  | cons kv rest ih =>
    obtain ⟨k1, v1⟩ := kv
    simp only [dedupRenderAux] at h
    rcases List.mem_cons.1 h with h | h
    · rcases hf : firstKeyFor seen v1 with _ | k0
      · rw [hf] at h
        simp only [Option.elim, Prod.mk.injEq, Rendered.shown.injEq] at h
        rw [h.2]
        exact hf
      · rw [hf] at h
        simp [Option.elim] at h
    · have h2 := ih (seen ++ [(k1, v1)]) h
      rcases hfw : firstKeyFor seen s with _ | k1'
      · rfl
      · rw [firstKeyFor_append_of_some _ hfw] at h2
        cases h2

/-- No two sections of the specification-side renderer show the same
string. -/
theorem dedupRenderAux_pairwise (pairs seen : List (String × String)) :
    List.Pairwise
      (fun a b => ∀ s t, a.2 = Rendered.shown s → b.2 = Rendered.shown t → s ≠ t)
      (dedupRenderAux seen pairs) := by
  induction pairs generalizing seen with
  | nil => simp [dedupRenderAux]
  | cons kv rest ih =>
    obtain ⟨k1, v1⟩ := kv
    simp only [dedupRenderAux]
    refine List.Pairwise.cons ?_ (ih _)
    intro b hb s t hhead hb2
    rcases hf : firstKeyFor seen v1 with _ | k0
    · rw [hf] at hhead
      simp only [Option.elim, Rendered.shown.injEq] at hhead
      have hbmem : (b.1, Rendered.shown t) ∈ dedupRenderAux (seen ++ [(k1, v1)]) rest := by
        have hbeq : b = (b.1, Rendered.shown t) := by
          rw [← hb2]
        exact hbeq ▸ hb
      have hbt := dedupRenderAux_shown _ _ b.1 t hbmem
      intro he
      rw [← he, ← hhead] at hbt
      rw [firstKeyFor_append_of_none k1 v1 hf, if_pos rfl] at hbt
      cases hbt
    · rw [hf] at hhead
      simp [Option.elim] at hhead

/-- C2: the rendered report deduplicates by rendered value across one shared
table — `writeError` coincides with the spec-side renderer that replaces
every second or later occurrence of a rendering with a back-reference to the
first key that produced it — and consequently no two sections of a report
show an identical formatted value string.  (Keys are required non-empty,
which holds for every report the library itself produces, and the argument
names are required to cover `got` and the args, as the arity validator
guarantees.) -/
theorem claim_C2_dedup (err : CErr) (p : ReportParams)
    (hn : ∀ kv ∈ p.notes, kv.1 ≠ "") (ha : ∀ a ∈ p.argNames, a ≠ "")
    (_hlen : p.argNames.length = p.args.length + 1) :
    writeError err p
        = dedupRender ((pairSeq err p).map fun kv => (kv.1, renderValue p.format kv.2)) ∧
      List.Pairwise
        (fun a b => ∀ s t, a.2 = Rendered.shown s → b.2 = Rendered.shown t → s ≠ t)
        (writeError err p) := by
  have hkeys : ∀ kv ∈ pairSeq err p, kv.1 ≠ "" := by
    intro kv hkv
    rcases List.mem_append.1 hkv with h | h4
    · rcases List.mem_append.1 h with h | h3
      · rcases List.mem_append.1 h with h1 | h2
        · split at h1
          · exact absurd h1 (List.not_mem_nil kv)
          · rw [List.mem_singleton] at h1
            subst h1
            simp
        · split at h2
          · exact absurd h2 (List.not_mem_nil kv)
          · rw [List.mem_singleton] at h2
            subst h2
            simp
      · exact hn kv h3
    · split at h4
      · exact absurd h4 (List.not_mem_nil kv)
      · obtain ⟨k, v⟩ := kv
        exact ha k (List.of_mem_zip h4).1
  have hmain : writeError err p
      = dedupRender ((pairSeq err p).map fun kv => (kv.1, renderValue p.format kv.2)) := by
    unfold writeError
    rw [foldl_printPair_spec p.format (pairSeq err p) ⟨[], fun _ => ""⟩ [] hkeys
      (by intro kv h; exact absurd h (List.not_mem_nil kv)) (fun w => rfl)]
    rfl
  refine ⟨hmain, ?_⟩
  rw [hmain]
  exact dedupRenderAux_pairwise _ _

/-- Witness for C2 at a concrete report whose `want` argument renders the
same string as `got`: the second occurrence becomes a back-reference and no
two sections show the same string. -/
theorem claim_C2_dedup_witness :
    writeError (.normal "boom")
        ⟨["got", "want"], .pval "v", [.pval "v"], "", [("n1", .unquoted "u")], fun s => s⟩
        = dedupRender
            ((pairSeq (.normal "boom")
                ⟨["got", "want"], .pval "v", [.pval "v"], "", [("n1", .unquoted "u")],
                  fun s => s⟩).map
              fun kv => (kv.1,
                renderValue
                  (ReportParams.format
                    ⟨["got", "want"], .pval "v", [.pval "v"], "", [("n1", .unquoted "u")],
                      fun s => s⟩) kv.2)) ∧
      List.Pairwise
        (fun a b => ∀ s t, a.2 = Rendered.shown s → b.2 = Rendered.shown t → s ≠ t)
        (writeError (.normal "boom")
          ⟨["got", "want"], .pval "v", [.pval "v"], "", [("n1", .unquoted "u")],
            fun s => s⟩) :=
  claim_C2_dedup (.normal "boom") _
    (by
      intro kv h
      rw [List.mem_singleton] at h
      subst h
      decide)
    (by
      intro a h
      rcases List.mem_cons.1 h with rfl | h
      · decide
      · rcases List.mem_cons.1 h with rfl | h
        · decide
        · exact absurd h (List.not_mem_nil a))
    rfl

/-- C6: `Matches`, `ErrorMatches` and `PanicMatches` all route their subject
string through the `match` helper, which anchors the caller's pattern as the
whole-string regular expression `^(pattern)$` — the engine is consulted on
exactly that pattern, and the check succeeds precisely when the anchored
match does — and a pattern that fails to compile yields a bad-check error
`cannot compile regular expression ...`, not a normal assertion failure. -/
theorem claim_C6_match_anchor (ms : RegexEngine)
    (subject regex msg ty m pm e : String) :
    (ms ("^(" ++ regex ++ ")$") subject = .error e →
      goMatch ms subject (.strV regex) msg
        = some (.badCheck
            ("cannot compile regular expression " ++ goQuote regex ++ ": " ++ e))) ∧
    (ms ("^(" ++ regex ++ ")$") subject = .ok true →
      goMatch ms subject (.strV regex) msg = none) ∧
    (ms ("^(" ++ regex ++ ")$") subject = .ok false →
      goMatch ms subject (.strV regex) msg = some (.normal msg)) ∧
    matchesCheckerCheck ms (.strV subject) [.strV regex]
      = (goMatch ms subject (.strV regex) "value does not match regexp", []) ∧
    errorMatchesCheckerCheck ms (.errV ty m) [.strV regex]
      = (goMatch ms m (.strV regex) "error does not match regexp",
          [("error message", m)]) ∧
    panicMatchesCheckerCheck ms (.funcV 0 (some pm)) [.strV regex]
      = (goMatch ms pm (.strV regex) "panic value does not match regexp",
          [("panic value", pm)]) := by
  refine ⟨fun h => ?_, fun h => ?_, fun h => ?_, rfl, rfl, rfl⟩
  · simp [goMatch, h]
  · simp [goMatch, h]
  · simp [goMatch, h]

/-- Witness for C6, over a concrete engine that accepts exactly the anchored
pattern for `bad wolf` and reports a compile error on everything else: an
uncompilable pattern is a bad check, and `ErrorMatches` succeeds on
`errors.New("bad wolf")` against `bad .*`. -/
theorem claim_C6_match_anchor_witness :
    goMatch
        (fun p s =>
          if p = "^(bad .*)$" ∧ s = "bad wolf" then Except.ok true
          else Except.error "missing closing paren")
        "x" (.strV "(") "m"
        = some (.badCheck
            ("cannot compile regular expression " ++ goQuote "(" ++ ": "
              ++ "missing closing paren")) ∧
      errorMatchesCheckerCheck
        (fun p s =>
          if p = "^(bad .*)$" ∧ s = "bad wolf" then Except.ok true
          else Except.error "missing closing paren")
        (.errV "E" "bad wolf") [.strV "bad .*"]
        = (none, [("error message", "bad wolf")]) := by
  constructor
  · exact (claim_C6_match_anchor
      (fun p s =>
        if p = "^(bad .*)$" ∧ s = "bad wolf" then Except.ok true
        else Except.error "missing closing paren")
      "x" "(" "m" "E" "bw" "pm" "missing closing paren").1 (by rfl)
  · have h5 := (claim_C6_match_anchor
      (fun p s =>
        if p = "^(bad .*)$" ∧ s = "bad wolf" then Except.ok true
        else Except.error "missing closing paren")
      "bad wolf" "bad .*" "mm" "E" "bad wolf" "pm" "er").2.2.2.2.1
    have h2 := (claim_C6_match_anchor
      (fun p s =>
        if p = "^(bad .*)$" ∧ s = "bad wolf" then Except.ok true
        else Except.error "missing closing paren")
      "bad wolf" "bad .*" "error does not match regexp" "E" "bad wolf" "pm"
      "er").2.1 (by rfl)
    rw [h5, h2]

/-- The stability loop succeeds when every poll during the stability phase
passes the wrapped checker. -/
theorem evStableLoop_all_none
    (chk : GoVal → List GoVal → Option CErr × List (String × EvVal))
    (args : List GoVal) (f : Nat → GoVal) (d : String) :
    ∀ (n idx : Nat), (∀ j, j ≤ n → (chk (f (idx + j)) args).1 = none) →
      (evStableLoop chk args f d idx n).err = none := by
  intro n
  induction n with
  | zero =>
    intro idx h
    have h0 := h 0 (Nat.le_refl 0)
    simp only [Nat.add_zero] at h0
    simp [evStableLoop, h0]
  | succ n ih =>
    intro idx h
    have h0 := h 0 (Nat.zero_le _)
    simp only [Nat.add_zero] at h0
    simp only [evStableLoop, h0]
    exact ih (idx + 1) fun j hj => by
      have := h (j + 1) (Nat.succ_le_succ hj)
      rwa [Nat.add_comm j 1, ← Nat.add_assoc] at this

/-- The stability loop fails with the wrapped error of the first failing
poll. -/
theorem evStableLoop_first_fail
    (chk : GoVal → List GoVal → Option CErr × List (String × EvVal))
    (args : List GoVal) (f : Nat → GoVal) (d : String) :
    ∀ (n idx j : Nat) (er : CErr), j ≤ n →
      (∀ i, i < j → (chk (f (idx + i)) args).1 = none) →
      (chk (f (idx + j)) args).1 = some er →
      (evStableLoop chk args f d idx n).err
        = some (.normal ("less than " ++ d ++ " after an initial success, "
            ++ er.error)) := by
  intro n
  induction n with
  | zero =>
    intro idx j er hj hlt hfail
    rw [Nat.le_zero] at hj
    subst hj
    simp only [Nat.add_zero] at hfail
    simp [evStableLoop, hfail]
  | succ n ih =>
    intro idx j er hj hlt hfail
    cases j with
    | zero =>
      simp only [Nat.add_zero] at hfail
      simp [evStableLoop, hfail]
    | succ j' =>
      have h0 := hlt 0 (Nat.succ_pos j')
      simp only [Nat.add_zero] at h0
      simp only [evStableLoop, h0]
      exact ih (idx + 1) j' er (Nat.le_of_succ_le_succ hj)
        (fun i hi => by
          have := hlt (i + 1) (Nat.succ_lt_succ hi)
          rwa [Nat.add_comm i 1, ← Nat.add_assoc] at this)
        (by rwa [Nat.add_comm j' 1, ← Nat.add_assoc] at hfail)

/-- C7: with a stability strategy configured, once the main polling loop has
succeeded the wrapped checker is re-polled for the stability strategy's
attempts; if every such poll passes, the overall check succeeds, while a
single failing poll makes the overall check fail with the
`less than ... after an initial success` error of the first failure. -/
theorem claim_C7_eventually_stable
    (chk : GoVal → List GoVal → Option CErr × List (String × EvVal))
    (args : List GoVal) (vals : Nat → GoVal) (rs st : RetryStrategy)
    (hmain : (evMainLoop chk args vals 0 rs.nextCount).err = none) :
    ((∀ j, j ≤ st.nextCount →
        (chk (vals ((evMainLoop chk args vals 0 rs.nextCount).nextIdx + j)) args).1
          = none) →
      (EventuallyChecker.Check ⟨chk, rs, some st⟩ (.fnV 0 1 vals) args).1 = none) ∧
    (∀ j er, j ≤ st.nextCount →
      (∀ i, i < j →
        (chk (vals ((evMainLoop chk args vals 0 rs.nextCount).nextIdx + i)) args).1
          = none) →
      (chk (vals ((evMainLoop chk args vals 0 rs.nextCount).nextIdx + j)) args).1
        = some er →
      (EventuallyChecker.Check ⟨chk, rs, some st⟩ (.fnV 0 1 vals) args).1
        = some (.normal ("less than " ++ st.maxDuration
            ++ " after an initial success, " ++ er.error))) := by
  have hcheck : (EventuallyChecker.Check ⟨chk, rs, some st⟩ (.fnV 0 1 vals) args).1
      = (evStableLoop chk args vals st.maxDuration
          (evMainLoop chk args vals 0 rs.nextCount).nextIdx st.nextCount).err := by
    simp [EventuallyChecker.Check, hmain]
  constructor
  · intro h
    rw [hcheck]
    exact evStableLoop_all_none chk args vals st.maxDuration st.nextCount _ h
  · intro j er hj hlt hfail
    rw [hcheck]
    exact evStableLoop_first_fail chk args vals st.maxDuration st.nextCount _ j er
      hj hlt hfail

/-- Witness for C7: a checker expecting 42, a subject that returns 40 on the
first poll and 42 afterwards, two extra main attempts and one extra stability
attempt — the overall check succeeds. -/
theorem claim_C7_eventually_stable_witness :
    (EventuallyChecker.Check
        ⟨fun g _ => (if g = GoVal.intV 42 then none else some (CErr.normal "not 42"), []),
          ⟨2, "5s"⟩, some ⟨1, "150ms"⟩⟩
        (.fnV 0 1 fun i => if i = 0 then GoVal.intV 40 else GoVal.intV 42) []).1
      = none :=
  (claim_C7_eventually_stable
    (fun g _ => (if g = GoVal.intV 42 then none else some (CErr.normal "not 42"), []))
    [] (fun i => if i = 0 then GoVal.intV 40 else GoVal.intV 42)
    ⟨2, "5s"⟩ ⟨1, "150ms"⟩ (by decide)).1 (by decide)

end Quicktest
